import Mathlib

/-!
Verification development for the `steppy` U-Net architecture code
(`src/steps/pytorch/architectures/unet.py`).

The file embeds the architecture-construction logic shallowly:
layer descriptors record the hyperparameters each `torch.nn` layer is
built with, network construction mirrors `UNet.__init__` and its helper
methods, and the forward passes are modelled symbolically as expression
trees over an abstract input tensor.  A separate shape semantics assigns
to every expression the (channels, height, width) triple that the
tensor library would produce, using the documented PyTorch output-size
formulas for `Conv2d`, `MaxPool2d` and `ConvTranspose2d`.
-/

namespace Steppy

/-- Modelled from the spec: `get_downsample_pad` lives in `steps/pytorch/utils.py`,
which is not part of this excerpt.  The spec states that padding values are
derived "to keep spatial dimensions exactly reversible across downsampling and
upsampling stages": for a layer of the given stride and kernel the padding is
the least one making an input of size `stride * q` map to size `q`, namely
`ceil ((kernel - stride) / 2)`. -/
def get_downsample_pad (stride kernel : Nat) : Nat :=
  (kernel - stride + 1) / 2

/-- Modelled from the spec: `get_upsample_pad` lives in `steps/pytorch/utils.py`,
which is not part of this excerpt.  It returns the `(padding, output_padding)`
pair making a transposed convolution of the given stride and kernel map an
input of size `q` to size `stride * q`, exactly undoing the matching
downsampling stage: `padding = ceil ((kernel - stride) / 2)` and
`output_padding = 2 * padding - (kernel - stride)`. -/
def get_upsample_pad (stride kernel : Nat) : Nat × Nat :=
  let padding := (kernel - stride + 1) / 2
  (padding, 2 * padding + stride - kernel)

/-- Descriptor of a `torch.nn.Conv2d` layer with square kernel. -/
structure Conv2dDesc where
  in_channels : Nat
  out_channels : Nat
  kernel_size : Nat
  stride : Nat
  padding : Nat
deriving DecidableEq, Repr

/-- Descriptor of a `torch.nn.MaxPool2d` layer. -/
structure MaxPool2dDesc where
  kernel_size : Nat
  stride : Nat
  padding : Nat
deriving DecidableEq, Repr

/-- Descriptor of a `torch.nn.ConvTranspose2d` layer (`bias=False` in the source). -/
structure ConvTranspose2dDesc where
  in_channels : Nat
  out_channels : Nat
  kernel_size : Nat
  stride : Nat
  padding : Nat
  output_padding : Nat
deriving DecidableEq, Repr

/-- A primitive layer of the assembled network graph. -/
inductive Layer where
  | conv2d (d : Conv2dDesc)
  | batchNorm2d (num_features : Nat)
  | relu
  | dropout (p : ℚ)
  | maxPool2d (d : MaxPool2dDesc)
  | convTranspose2d (d : ConvTranspose2dDesc)
deriving DecidableEq, Repr

/-- `UNet.__init__` stores `self.conv_stride = 1` (line 26 of the source).
`DownConv._down_conv` and `UpConv._up_conv` begin with
`stride = self.conv_stride`; the enclosing network's value `1` is the value
those blocks are meant to use (the attribute is in fact never assigned on the
sub-module objects themselves, a defect modelled by `DownConv.buildPy` and
`UNet.initPy` below; the assembled-graph model uses the intended value). -/
def conv_stride : Nat := 1

/-- The `DownConv` module: fields assigned by `DownConv.__init__` plus the
layer sequence built by `DownConv._down_conv`. -/
structure DownConv where
  in_channels : Nat
  block_channels : Nat
  kernel_size : Nat
  batch_norm : Bool
  dropout : ℚ
  down_conv : List Layer
deriving DecidableEq, Repr

/-- The layer list `DownConv._down_conv` assembles (source lines 248-279). -/
def DownConv.down_conv_layers (in_channels block_channels kernel_size : Nat)
    (batch_norm : Bool) (dropout : ℚ) : List Layer :=
  let stride := conv_stride
  let padding := get_downsample_pad stride kernel_size
  if batch_norm then
    [Layer.conv2d ⟨in_channels, block_channels, kernel_size, stride, padding⟩,
     Layer.batchNorm2d block_channels,
     Layer.relu,
     Layer.conv2d ⟨block_channels, block_channels, kernel_size, stride, padding⟩,
     Layer.batchNorm2d block_channels,
     Layer.relu,
     Layer.dropout dropout]
  else
    [Layer.conv2d ⟨in_channels, block_channels, kernel_size, stride, padding⟩,
     Layer.relu,
     Layer.conv2d ⟨block_channels, block_channels, kernel_size, stride, padding⟩,
     Layer.relu,
     Layer.dropout dropout]

/-- `DownConv.__init__` (source lines 238-246): `block_channels = int(in_channels * 2.)`. -/
def DownConv.build (in_channels kernel_size : Nat) (batch_norm : Bool) (dropout : ℚ) :
    DownConv :=
  { in_channels := in_channels
    block_channels := 2 * in_channels
    kernel_size := kernel_size
    batch_norm := batch_norm
    dropout := dropout
    down_conv := DownConv.down_conv_layers in_channels (2 * in_channels) kernel_size
      batch_norm dropout }

/-- The `UpConv` module: fields assigned by `UpConv.__init__` plus the layer
sequence built by `UpConv._up_conv`. -/
structure UpConv where
  in_channels : Nat
  block_channels : Nat
  kernel_size : Nat
  batch_norm : Bool
  dropout : ℚ
  up_conv : List Layer
deriving DecidableEq, Repr

/-- The layer list `UpConv._up_conv` assembles (source lines 296-328). -/
def UpConv.up_conv_layers (in_channels block_channels kernel_size : Nat)
    (batch_norm : Bool) (dropout : ℚ) : List Layer :=
  let stride := conv_stride
  let padding := get_downsample_pad stride kernel_size
  if batch_norm then
    [Layer.conv2d ⟨in_channels, block_channels, kernel_size, stride, padding⟩,
     Layer.batchNorm2d block_channels,
     Layer.relu,
     Layer.conv2d ⟨block_channels, block_channels, kernel_size, stride, padding⟩,
     Layer.batchNorm2d block_channels,
     Layer.relu,
     Layer.dropout dropout]
  else
    [Layer.conv2d ⟨in_channels, block_channels, kernel_size, stride, padding⟩,
     Layer.relu,
     Layer.conv2d ⟨block_channels, block_channels, kernel_size, stride, padding⟩,
     Layer.relu,
     Layer.dropout dropout]

/-- `UpConv.__init__` (source lines 286-294): `block_channels = int(in_channels / 2.)`. -/
def UpConv.build (in_channels kernel_size : Nat) (batch_norm : Bool) (dropout : ℚ) :
    UpConv :=
  { in_channels := in_channels
    block_channels := in_channels / 2
    kernel_size := kernel_size
    batch_norm := batch_norm
    dropout := dropout
    up_conv := UpConv.up_conv_layers in_channels (in_channels / 2) kernel_size
      batch_norm dropout }

/-- The keyword arguments of `UNet.__init__` (source lines 8-14), with the
source's default values.  Python's `**kwargs` catch-all is modelled by the
`kwargs` field: extra keyword arguments are accepted and never read. -/
structure Hyper where
  conv_kernel : Nat := 3
  pool_kernel : Nat := 3
  pool_stride : Nat := 2
  repeat_blocks : Nat := 2
  n_filters : Nat := 8
  batch_norm : Bool := true
  dropout : ℚ := 1/10
  in_channels : Nat := 3
  out_channels : Nat := 2
  kernel_scale : Nat := 3
  kwargs : List (String × String) := []
deriving DecidableEq, Repr

/-- The assembled `UNet` object: hyperparameter attributes stored by
`__init__` (source lines 25-35) and the assembled components (lines 37-44). -/
structure UNet where
  conv_kernel : Nat
  pool_kernel : Nat
  pool_stride : Nat
  repeat_blocks : Nat
  n_filters : Nat
  batch_norm : Bool
  dropout : ℚ
  in_channels : Nat
  out_channels : Nat
  kernel_scale : Nat
  input_block : List Layer
  down_convs : List DownConv
  down_pools : List MaxPool2dDesc
  floor_block : DownConv
  up_convs : List UpConv
  up_samples : List ConvTranspose2dDesc
  classification_block : List Layer
  output_layer : Conv2dDesc
deriving DecidableEq, Repr

namespace UNet

/-- `UNet._down_convs` (source lines 46-51). -/
def mk_down_convs (hp : Hyper) : List DownConv :=
  (List.range hp.repeat_blocks).map fun i =>
    DownConv.build (hp.n_filters * 2 ^ i) hp.conv_kernel hp.batch_norm hp.dropout

/-- `UNet._up_convs` (source lines 53-58). -/
def mk_up_convs (hp : Hyper) : List UpConv :=
  (List.range hp.repeat_blocks).map fun i =>
    UpConv.build (hp.n_filters * 2 ^ (i + 2)) hp.conv_kernel hp.batch_norm hp.dropout

/-- `UNet._down_pools` (source lines 60-67): the same pooling layer is
appended `repeat_blocks` times. -/
def mk_down_pools (hp : Hyper) : List MaxPool2dDesc :=
  List.replicate hp.repeat_blocks
    ⟨hp.pool_kernel, hp.pool_stride, get_downsample_pad hp.pool_stride hp.pool_kernel⟩

/-- `UNet._up_samples` (source lines 69-86): `kernel_size = kernel_scale * pool_stride`,
padding and output padding from `get_upsample_pad`. -/
def mk_up_samples (hp : Hyper) : List ConvTranspose2dDesc :=
  let kernel_size := hp.kernel_scale * hp.pool_stride
  let po := get_upsample_pad hp.pool_stride kernel_size
  (List.range hp.repeat_blocks).map fun i =>
    ⟨hp.n_filters * 2 ^ (i + 2), hp.n_filters * 2 ^ (i + 1), kernel_size,
     hp.pool_stride, po.1, po.2⟩

/-- `UNet._input_block` (source lines 88-119). -/
def mk_input_block (hp : Hyper) : List Layer :=
  let stride := conv_stride
  let padding := get_downsample_pad stride hp.conv_kernel
  if hp.batch_norm then
    [Layer.conv2d ⟨hp.in_channels, hp.n_filters, hp.conv_kernel, stride, padding⟩,
     Layer.batchNorm2d hp.n_filters,
     Layer.relu,
     Layer.conv2d ⟨hp.n_filters, hp.n_filters, hp.conv_kernel, stride, padding⟩,
     Layer.batchNorm2d hp.n_filters,
     Layer.relu,
     Layer.dropout hp.dropout]
  else
    [Layer.conv2d ⟨hp.in_channels, hp.n_filters, hp.conv_kernel, stride, padding⟩,
     Layer.relu,
     Layer.conv2d ⟨hp.n_filters, hp.n_filters, hp.conv_kernel, stride, padding⟩,
     Layer.relu,
     Layer.dropout hp.dropout]

/-- `UNet._floor_block` (source lines 121-124): a `Sequential` holding one
`DownConv` on `n_filters * 2 ** repeat_blocks` channels. -/
def mk_floor_block (hp : Hyper) : DownConv :=
  DownConv.build (hp.n_filters * 2 ^ hp.repeat_blocks) hp.conv_kernel hp.batch_norm hp.dropout

/-- `UNet._classification_block` (source lines 126-157). -/
def mk_classification_block (hp : Hyper) : List Layer :=
  let in_block := 2 * hp.n_filters
  let stride := conv_stride
  let padding := get_downsample_pad stride hp.conv_kernel
  if hp.batch_norm then
    [Layer.conv2d ⟨in_block, hp.n_filters, hp.conv_kernel, stride, padding⟩,
     Layer.batchNorm2d hp.n_filters,
     Layer.relu,
     Layer.dropout hp.dropout,
     Layer.conv2d ⟨hp.n_filters, hp.n_filters, hp.conv_kernel, stride, padding⟩,
     Layer.batchNorm2d hp.n_filters,
     Layer.relu]
  else
    [Layer.conv2d ⟨in_block, hp.n_filters, hp.conv_kernel, stride, padding⟩,
     Layer.relu,
     Layer.dropout hp.dropout,
     Layer.conv2d ⟨hp.n_filters, hp.n_filters, hp.conv_kernel, stride, padding⟩,
     Layer.relu]

/-- `UNet._output_layer` (source lines 159-161): a 1x1 convolution, stride 1,
padding 0, from `n_filters` to `out_channels` channels. -/
def mk_output_layer (hp : Hyper) : Conv2dDesc :=
  ⟨hp.n_filters, hp.out_channels, 1, 1, 0⟩

/-- The assembly performed by `UNet.__init__` (source lines 23-44), assuming
both assertions hold and modelling the sub-module stride by the enclosing
network's `conv_stride = 1` (see `conv_stride`). -/
def build (hp : Hyper) : UNet :=
  { conv_kernel := hp.conv_kernel
    pool_kernel := hp.pool_kernel
    pool_stride := hp.pool_stride
    repeat_blocks := hp.repeat_blocks
    n_filters := hp.n_filters
    batch_norm := hp.batch_norm
    dropout := hp.dropout
    in_channels := hp.in_channels
    out_channels := hp.out_channels
    kernel_scale := hp.kernel_scale
    input_block := mk_input_block hp
    down_convs := mk_down_convs hp
    down_pools := mk_down_pools hp
    floor_block := mk_floor_block hp
    up_convs := mk_up_convs hp
    up_samples := mk_up_samples hp
    classification_block := mk_classification_block hp
    output_layer := mk_output_layer hp }

end UNet

/-- Symbolic tensor expressions: the abstract input, application of a single
layer, and `torch.cat((a, b), dim=1)` (channel-wise concatenation, `a` first). -/
inductive TExpr where
  | input
  | app (l : Layer) (t : TExpr)
  | cat (a b : TExpr)
deriving DecidableEq, Repr

/-- Applying a `torch.nn.Sequential` list of layers, first layer first. -/
def TExpr.applySeq (ls : List Layer) (t : TExpr) : TExpr :=
  ls.foldl (fun acc l => TExpr.app l acc) t

namespace UNet

/-- The encoder loop of `UNet.forward` (source lines 166-170): each `DownConv`
output is saved as a skip connection, then pooled. -/
def down_loop : List (DownConv × MaxPool2dDesc) → TExpr → List TExpr × TExpr
  | [], x => ([], x)
  | (block, pool) :: rest, x =>
    let y := TExpr.applySeq block.down_conv x
    let r := down_loop rest (TExpr.app (Layer.maxPool2d pool) y)
    (y :: r.1, r.2)

/-- The decoder loop of `UNet.forward` (source lines 173-179): upsample,
concatenate the saved skip output (first) with the upsampled tensor, then
apply the `UpConv` block. -/
def up_loop : List (TExpr × (UpConv × ConvTranspose2dDesc)) → TExpr → TExpr
  | [], x => x
  | (skip, blockSample) :: rest, x =>
    let y := TExpr.app (Layer.convTranspose2d blockSample.2) x
    let z := TExpr.cat skip y
    up_loop rest (TExpr.applySeq blockSample.1.up_conv z)

/-- `UNet.forward` (source lines 163-183). -/
def forward (net : UNet) : TExpr :=
  let x := TExpr.applySeq net.input_block TExpr.input
  let r := down_loop (net.down_convs.zip net.down_pools) x
  let x := TExpr.applySeq net.floor_block.down_conv r.2
  let x := up_loop (r.1.reverse.zip (net.up_convs.reverse.zip net.up_samples.reverse)) x
  let x := TExpr.applySeq net.classification_block x
  TExpr.app (Layer.conv2d net.output_layer) x

end UNet

/-- The positional parameters of `UNetMultitask.__init__` (source lines
187-197): the shared hyperparameters of the two architectures.  The
constructor forwards them to `UNet.__init__`, leaving `kernel_scale` at its
default `3` and passing no extra keyword arguments. -/
structure MHyper where
  conv_kernel : Nat
  pool_kernel : Nat
  pool_stride : Nat
  repeat_blocks : Nat
  n_filters : Nat
  batch_norm : Bool
  dropout : ℚ
  in_channels : Nat
  out_channels : Nat
deriving DecidableEq, Repr

/-- The `UNet.__init__` call performed by `UNetMultitask.__init__`
(source lines 198-206): the nine shared parameters, `kernel_scale` left at
its default value `3`, no extra keyword arguments. -/
def MHyper.toHyper (hp : MHyper) : Hyper :=
  { conv_kernel := hp.conv_kernel
    pool_kernel := hp.pool_kernel
    pool_stride := hp.pool_stride
    repeat_blocks := hp.repeat_blocks
    n_filters := hp.n_filters
    batch_norm := hp.batch_norm
    dropout := hp.dropout
    in_channels := hp.in_channels
    out_channels := hp.out_channels
    kernel_scale := 3
    kwargs := [] }

/-- The assembled `UNetMultitask` object: the inherited `UNet` plus
`nr_outputs` and the `output_legs` list (source lines 207-211). -/
structure UNetMultitask where
  net : UNet
  nr_outputs : Nat
  output_legs : List Conv2dDesc
deriving DecidableEq, Repr

namespace UNetMultitask

/-- `UNetMultitask.__init__` (source lines 187-211): build the base `UNet`
from the shared parameters, then append `nr_outputs` copies of
`self._output_layer()`. -/
def build (hp : MHyper) (nr_outputs : Nat) : UNetMultitask :=
  { net := UNet.build hp.toHyper
    nr_outputs := nr_outputs
    output_legs := (List.range nr_outputs).map fun _ => UNet.mk_output_layer hp.toHyper }

/-- `UNetMultitask.forward` (source lines 213-234).  The trunk code is a
textual copy of `UNet.forward` in the source; it is transcribed again here. -/
def forward (m : UNetMultitask) : List TExpr :=
  let x := TExpr.applySeq m.net.input_block TExpr.input
  let r := UNet.down_loop (m.net.down_convs.zip m.net.down_pools) x
  let x := TExpr.applySeq m.net.floor_block.down_conv r.2
  let x := UNet.up_loop
    (r.1.reverse.zip (m.net.up_convs.reverse.zip m.net.up_samples.reverse)) x
  let x := TExpr.applySeq m.net.classification_block x
  m.output_legs.map fun leg => TExpr.app (Layer.conv2d leg) x

end UNetMultitask

/-! ### Shape semantics

PyTorch output-size formulas for the layers involved, on a
(channels, height, width) shape. -/

/-- A tensor shape (one image of a batch): channels, height, width. -/
structure Shape where
  channels : Nat
  height : Nat
  width : Nat
deriving DecidableEq, Repr

/-- Output size of `Conv2d` and `MaxPool2d` (default dilation 1,
`ceil_mode=False`): `floor ((size + 2*padding - kernel) / stride) + 1`. -/
def convOutSize (size kernel stride padding : Nat) : Nat :=
  (size + 2 * padding - kernel) / stride + 1

/-- Output size of `ConvTranspose2d` (default dilation 1):
`(size - 1) * stride - 2*padding + kernel + output_padding`. -/
def convTransposeOutSize (size kernel stride padding output_padding : Nat) : Nat :=
  (size - 1) * stride + kernel + output_padding - 2 * padding

/-- Shape produced by one layer.  `BatchNorm2d`, `ReLU` and `Dropout` are
shape-preserving. -/
def Layer.outShape : Layer → Shape → Shape
  | Layer.conv2d d, s =>
    ⟨d.out_channels, convOutSize s.height d.kernel_size d.stride d.padding,
     convOutSize s.width d.kernel_size d.stride d.padding⟩
  | Layer.batchNorm2d _, s => s
  | Layer.relu, s => s
  | Layer.dropout _, s => s
  | Layer.maxPool2d d, s =>
    ⟨s.channels, convOutSize s.height d.kernel_size d.stride d.padding,
     convOutSize s.width d.kernel_size d.stride d.padding⟩
  | Layer.convTranspose2d d, s =>
    ⟨d.out_channels,
     convTransposeOutSize s.height d.kernel_size d.stride d.padding d.output_padding,
     convTransposeOutSize s.width d.kernel_size d.stride d.padding d.output_padding⟩

/-- Shape of a sequential block applied to a shape. -/
def seqShape (ls : List Layer) (s : Shape) : Shape :=
  ls.foldl (fun acc l => l.outShape acc) s

/-- Shape of a symbolic tensor expression, given the shape of the input.
`torch.cat(_, dim=1)` sums the channel counts; its operands have equal
spatial dimensions whenever the expression comes from a run that the tensor
library accepts, and the first operand's spatial dimensions are used. -/
def TExpr.outShape (inS : Shape) : TExpr → Shape
  | TExpr.input => inS
  | TExpr.app l t => l.outShape (t.outShape inS)
  | TExpr.cat a b =>
    ⟨(a.outShape inS).channels + (b.outShape inS).channels,
     (a.outShape inS).height, (a.outShape inS).width⟩

/-! ### Execution model of `UNet.__init__`

`UNet.__init__` first checks two assertions, then issues a warning, then
assembles the eight components in a fixed order.  `DownConv._down_conv`
(called from `DownConv.__init__`) and `UpConv._up_conv` (called from
`UpConv.__init__`) begin with `stride = self.conv_stride`; Python resolves
that attribute against the sub-module object, on which `__init__` has
assigned only the attributes listed below, so the lookup raises
`AttributeError`. -/

/-- A Python exception relevant to `UNet.__init__`. -/
inductive PyExc where
  | assertionError
  | attributeError (attr : String)
deriving DecidableEq, Repr

/-- Attributes assigned on a `DownConv` object before `_down_conv` runs
(source lines 240-244). -/
def DownConv.assignedAttrs : List String :=
  ["in_channels", "block_channels", "kernel_size", "batch_norm", "dropout"]

/-- Attributes assigned on an `UpConv` object before `_up_conv` runs
(source lines 288-292). -/
def UpConv.assignedAttrs : List String :=
  ["in_channels", "block_channels", "kernel_size", "batch_norm", "dropout"]

/-- `DownConv.__init__` as Python executes it: `_down_conv` reads
`self.conv_stride`, which succeeds only if that attribute was assigned on the
object; otherwise `AttributeError` propagates out of the constructor. -/
def DownConv.buildPy (in_channels kernel_size : Nat) (batch_norm : Bool) (dropout : ℚ) :
    Except PyExc DownConv :=
  if "conv_stride" ∈ DownConv.assignedAttrs then
    Except.ok (DownConv.build in_channels kernel_size batch_norm dropout)
  else
    Except.error (PyExc.attributeError "conv_stride")

/-- `UpConv.__init__` as Python executes it (same situation as
`DownConv.buildPy`). -/
def UpConv.buildPy (in_channels kernel_size : Nat) (batch_norm : Bool) (dropout : ℚ) :
    Except PyExc UpConv :=
  if "conv_stride" ∈ UpConv.assignedAttrs then
    Except.ok (UpConv.build in_channels kernel_size batch_norm dropout)
  else
    Except.error (PyExc.attributeError "conv_stride")

/-- A Python `for`-loop over indices that appends one constructed value per
iteration and lets an exception abort the whole loop. -/
def buildLoop {α : Type} (f : Nat → Except PyExc α) : List Nat → Except PyExc (List α)
  | [] => Except.ok []
  | i :: rest =>
    match f i with
    | Except.error e => Except.error e
    | Except.ok a =>
      match buildLoop f rest with
      | Except.error e => Except.error e
      | Except.ok tail => Except.ok (a :: tail)

namespace UNet

/-- `UNet._down_convs` as Python executes it. -/
def mk_down_convsPy (hp : Hyper) : Except PyExc (List DownConv) :=
  buildLoop
    (fun i => DownConv.buildPy (hp.n_filters * 2 ^ i) hp.conv_kernel hp.batch_norm hp.dropout)
    (List.range hp.repeat_blocks)

/-- `UNet._up_convs` as Python executes it. -/
def mk_up_convsPy (hp : Hyper) : Except PyExc (List UpConv) :=
  buildLoop
    (fun i =>
      UpConv.buildPy (hp.n_filters * 2 ^ (i + 2)) hp.conv_kernel hp.batch_norm hp.dropout)
    (List.range hp.repeat_blocks)

/-- `UNet._floor_block` as Python executes it. -/
def mk_floor_blockPy (hp : Hyper) : Except PyExc DownConv :=
  DownConv.buildPy (hp.n_filters * 2 ^ hp.repeat_blocks) hp.conv_kernel hp.batch_norm hp.dropout

/-- Outcome of running `UNet.__init__`: whether the divisibility warning was
issued, which component attributes were successfully assigned (in order), and
the exception that escaped, if any. -/
structure InitTrace where
  warned : Bool
  assembled : List String
  exc : Option PyExc
deriving DecidableEq, Repr

/-- The component-assembly part of `UNet.__init__` (source lines 37-44), run
after both assertions passed and the warning was issued.  `_input_block`,
`_down_pools`, `_up_samples`, `_classification_block` and `_output_layer`
construct plain `torch.nn` layers and always succeed; `_down_convs`,
`_floor_block` and `_up_convs` construct `DownConv` / `UpConv` sub-modules
and propagate their exceptions. -/
def assemblePy (hp : Hyper) : List String × Option PyExc :=
  match mk_down_convsPy hp with
  | Except.error e => (["input_block"], some e)
  | Except.ok _ =>
    match mk_floor_blockPy hp with
    | Except.error e => (["input_block", "down_convs", "down_pools"], some e)
    | Except.ok _ =>
      match mk_up_convsPy hp with
      | Except.error e =>
        (["input_block", "down_convs", "down_pools", "floor_block"], some e)
      | Except.ok _ =>
        (["input_block", "down_convs", "down_pools", "floor_block", "up_convs",
          "up_samples", "classification_block", "output_layer"], none)

/-- `UNet.__init__` as Python executes it (source lines 16-44): the two
assertions (lines 16-19), the warning (lines 20-21), then component
assembly. -/
def initPy (hp : Hyper) : InitTrace :=
  if hp.conv_kernel % 2 = 1 then
    if hp.pool_stride > 1 ∨ hp.pool_kernel % 2 = 1 then
      let r := assemblePy hp
      ⟨true, r.1, r.2⟩
    else ⟨false, [], some PyExc.assertionError⟩
  else ⟨false, [], some PyExc.assertionError⟩

end UNet

/-! ### Indexed description of the forward pass

`specX net i` is the running tensor just before encoder level `i`
(`specX net 0` is the `input_block` output), `specSkip net i` the saved
skip-connection output of level `i`, and `specUp net k` the running tensor
after the `k` deepest decoder levels have been processed.  These definitions
follow the prose description of the forward pass level by level; the theorems
relate them to the `forward` functions transcribed from the source. -/

/-- Fallback `DownConv` for out-of-range list indexing (never reached in the
theorems below). -/
def dfltDownConv : DownConv := DownConv.build 0 0 false 0

/-- Fallback `UpConv` for out-of-range list indexing. -/
def dfltUpConv : UpConv := UpConv.build 0 0 false 0

/-- Fallback `MaxPool2d` descriptor for out-of-range list indexing. -/
def dfltPool : MaxPool2dDesc := ⟨0, 0, 0⟩

/-- Fallback `ConvTranspose2d` descriptor for out-of-range list indexing. -/
def dfltSample : ConvTranspose2dDesc := ⟨0, 0, 0, 0, 0, 0⟩

namespace UNet

/-- Running tensor just before encoder level `i`: the input block applied to
the input, then for each previous level its down-conv block followed by its
pooling layer. -/
def specX (net : UNet) : Nat → TExpr
  | 0 => TExpr.applySeq net.input_block TExpr.input
  | i + 1 =>
    TExpr.app (Layer.maxPool2d (net.down_pools.getD i dfltPool))
      (TExpr.applySeq (net.down_convs.getD i dfltDownConv).down_conv (specX net i))

/-- Skip-connection tensor saved at encoder level `i`: the output of the
`i`-th down-conv block. -/
def specSkip (net : UNet) (i : Nat) : TExpr :=
  TExpr.applySeq (net.down_convs.getD i dfltDownConv).down_conv (specX net i)

/-- Tensor after the floor block, at the bottom of the U. -/
def specFloor (net : UNet) : TExpr :=
  TExpr.applySeq net.floor_block.down_conv (specX net net.repeat_blocks)

/-- Running tensor after the `k` deepest decoder levels: `specUp net 0` is the
floor-block output; step `k + 1` processes level `repeat_blocks - (k + 1)`
by upsampling, concatenating that level's saved skip output (first) with the
upsampled tensor, and applying that level's up-conv block. -/
def specUp (net : UNet) : Nat → TExpr
  | 0 => specFloor net
  | k + 1 =>
    let i := net.repeat_blocks - (k + 1)
    TExpr.applySeq (net.up_convs.getD i dfltUpConv).up_conv
      (TExpr.cat (specSkip net i)
        (TExpr.app (Layer.convTranspose2d (net.up_samples.getD i dfltSample))
          (specUp net k)))

/-- The classification-block output: the shared trunk value to which the
final output layer (or each output leg) is applied. -/
def specTrunk (net : UNet) : TExpr :=
  TExpr.applySeq net.classification_block (specUp net net.repeat_blocks)

/-- The whole forward pass, described level by level. -/
def forwardSpec (net : UNet) : TExpr :=
  TExpr.app (Layer.conv2d net.output_layer) (specTrunk net)

end UNet

/-! ### The loop-based forward pass equals the level-indexed description -/

/-- The `DownConv` block constructed for encoder level `i`. -/
def downConvAt (hp : Hyper) (i : Nat) : DownConv :=
  DownConv.build (hp.n_filters * 2 ^ i) hp.conv_kernel hp.batch_norm hp.dropout

/-- The `UpConv` block constructed for decoder level `i`. -/
def upConvAt (hp : Hyper) (i : Nat) : UpConv :=
  UpConv.build (hp.n_filters * 2 ^ (i + 2)) hp.conv_kernel hp.batch_norm hp.dropout

/-- The pooling-layer descriptor (the same at every level). -/
def poolDesc (hp : Hyper) : MaxPool2dDesc :=
  ⟨hp.pool_kernel, hp.pool_stride, get_downsample_pad hp.pool_stride hp.pool_kernel⟩

/-- The transposed-convolution descriptor constructed for decoder level `i`. -/
def upSampleAt (hp : Hyper) (i : Nat) : ConvTranspose2dDesc :=
  ⟨hp.n_filters * 2 ^ (i + 2), hp.n_filters * 2 ^ (i + 1),
   hp.kernel_scale * hp.pool_stride, hp.pool_stride,
   (get_upsample_pad hp.pool_stride (hp.kernel_scale * hp.pool_stride)).1,
   (get_upsample_pad hp.pool_stride (hp.kernel_scale * hp.pool_stride)).2⟩

lemma mk_down_convs_eq (hp : Hyper) :
    UNet.mk_down_convs hp = (List.range hp.repeat_blocks).map (downConvAt hp) := rfl

lemma mk_up_convs_eq (hp : Hyper) :
    UNet.mk_up_convs hp = (List.range hp.repeat_blocks).map (upConvAt hp) := rfl

lemma mk_down_pools_eq (hp : Hyper) :
    UNet.mk_down_pools hp = List.replicate hp.repeat_blocks (poolDesc hp) := rfl

lemma mk_up_samples_eq (hp : Hyper) :
    UNet.mk_up_samples hp = (List.range hp.repeat_blocks).map (upSampleAt hp) := rfl

lemma getD_range_map {α : Type} (f : Nat → α) (n i : Nat) (d : α) (h : i < n) :
    ((List.range n).map f).getD i d = f i := by
  rw [List.getD_eq_getElem?_getD]
  simp [List.getElem?_map, List.getElem?_range h]

lemma getD_replicate {α : Type} (a : α) (n i : Nat) (d : α) (h : i < n) :
    (List.replicate n a).getD i d = a := by
  rw [List.getD_eq_getElem?_getD]
  simp [List.getElem?_replicate, h]

lemma build_down_convs_getD (hp : Hyper) (i : Nat) (h : i < hp.repeat_blocks) :
    (UNet.build hp).down_convs.getD i dfltDownConv = downConvAt hp i := by
  show (UNet.mk_down_convs hp).getD i dfltDownConv = downConvAt hp i
  rw [mk_down_convs_eq, getD_range_map _ _ _ _ h]

lemma build_up_convs_getD (hp : Hyper) (i : Nat) (h : i < hp.repeat_blocks) :
    (UNet.build hp).up_convs.getD i dfltUpConv = upConvAt hp i := by
  show (UNet.mk_up_convs hp).getD i dfltUpConv = upConvAt hp i
  rw [mk_up_convs_eq, getD_range_map _ _ _ _ h]

lemma build_down_pools_getD (hp : Hyper) (i : Nat) (h : i < hp.repeat_blocks) :
    (UNet.build hp).down_pools.getD i dfltPool = poolDesc hp := by
  show (UNet.mk_down_pools hp).getD i dfltPool = poolDesc hp
  rw [mk_down_pools_eq, getD_replicate _ _ _ _ h]

lemma build_up_samples_getD (hp : Hyper) (i : Nat) (h : i < hp.repeat_blocks) :
    (UNet.build hp).up_samples.getD i dfltSample = upSampleAt hp i := by
  show (UNet.mk_up_samples hp).getD i dfltSample = upSampleAt hp i
  rw [mk_up_samples_eq, getD_range_map _ _ _ _ h]

lemma specX_succ_of_lt (hp : Hyper) (i : Nat) (h : i < hp.repeat_blocks) :
    UNet.specX (UNet.build hp) (i + 1) =
      TExpr.app (Layer.maxPool2d (poolDesc hp))
        (TExpr.applySeq (downConvAt hp i).down_conv (UNet.specX (UNet.build hp) i)) := by
  rw [UNet.specX, build_down_pools_getD hp i h, build_down_convs_getD hp i h]

lemma specSkip_of_lt (hp : Hyper) (i : Nat) (h : i < hp.repeat_blocks) :
    UNet.specSkip (UNet.build hp) i =
      TExpr.applySeq (downConvAt hp i).down_conv (UNet.specX (UNet.build hp) i) := by
  rw [UNet.specSkip, build_down_convs_getD hp i h]

lemma down_loop_spec (hp : Hyper) (n a : Nat) (h : a + n ≤ hp.repeat_blocks) :
    UNet.down_loop
        (((List.range' a n).map (downConvAt hp)).zip (List.replicate n (poolDesc hp)))
        (UNet.specX (UNet.build hp) a) =
      ((List.range' a n).map (UNet.specSkip (UNet.build hp)),
        UNet.specX (UNet.build hp) (a + n)) := by
  induction n generalizing a with
  | zero => simp [UNet.down_loop]
  | succ n ih =>
    have ha : a < hp.repeat_blocks := by omega
    rw [List.range'_succ]
    simp only [List.map_cons, List.replicate_succ, List.zip_cons_cons, UNet.down_loop]
    rw [← specSkip_of_lt hp a ha]
    have hx : TExpr.app (Layer.maxPool2d (poolDesc hp)) (UNet.specSkip (UNet.build hp) a) =
        UNet.specX (UNet.build hp) (a + 1) := by
      rw [specX_succ_of_lt hp a ha, specSkip_of_lt hp a ha]
    rw [hx]
    have ih2 := ih (a + 1) (by omega)
    rw [List.zip_eq_zipWith] at ih2
    rw [ih2]
    have : a + 1 + n = a + (n + 1) := by omega
    rw [this]

lemma specUp_succ_of (hp : Hyper) (k i : Nat) (hk : i + (k + 1) = hp.repeat_blocks) :
    UNet.specUp (UNet.build hp) (k + 1) =
      TExpr.applySeq (upConvAt hp i).up_conv
        (TExpr.cat (UNet.specSkip (UNet.build hp) i)
          (TExpr.app (Layer.convTranspose2d (upSampleAt hp i))
            (UNet.specUp (UNet.build hp) k))) := by
  have hi : i < hp.repeat_blocks := by omega
  have hrb : (UNet.build hp).repeat_blocks = hp.repeat_blocks := rfl
  rw [UNet.specUp]
  rw [hrb]
  have : hp.repeat_blocks - (k + 1) = i := by omega
  rw [this, build_up_convs_getD hp i hi, build_up_samples_getD hp i hi]

lemma up_loop_spec (hp : Hyper) (m k : Nat) (h : m + k = hp.repeat_blocks) :
    UNet.up_loop
        ((List.range m).reverse.map fun i =>
          (UNet.specSkip (UNet.build hp) i, (upConvAt hp i, upSampleAt hp i)))
        (UNet.specUp (UNet.build hp) k) =
      UNet.specUp (UNet.build hp) hp.repeat_blocks := by
  induction m generalizing k with
  | zero =>
    simp only [List.range_zero, List.reverse_nil, List.map_nil, UNet.up_loop]
    have : k = hp.repeat_blocks := by omega
    rw [this]
  | succ m ih =>
    rw [List.range_succ]
    simp only [List.reverse_append, List.reverse_cons, List.reverse_nil, List.nil_append,
      List.cons_append, List.map_cons, UNet.up_loop]
    rw [← specUp_succ_of hp k m (by omega)]
    exact ih (k + 1) (by omega)

/-- The forward pass of the assembled network, written with the source's
loops over zipped module lists, coincides with the level-indexed
description `forwardSpec`. -/
lemma forward_eq_forwardSpec (hp : Hyper) :
    UNet.forward (UNet.build hp) = UNet.forwardSpec (UNet.build hp) := by
  have hdc : (UNet.build hp).down_convs = (List.range hp.repeat_blocks).map (downConvAt hp) :=
    mk_down_convs_eq hp
  have hdp : (UNet.build hp).down_pools = List.replicate hp.repeat_blocks (poolDesc hp) :=
    mk_down_pools_eq hp
  have huc : (UNet.build hp).up_convs = (List.range hp.repeat_blocks).map (upConvAt hp) :=
    mk_up_convs_eq hp
  have hus : (UNet.build hp).up_samples = (List.range hp.repeat_blocks).map (upSampleAt hp) :=
    mk_up_samples_eq hp
  have h0 : TExpr.applySeq (UNet.build hp).input_block TExpr.input
      = UNet.specX (UNet.build hp) 0 := rfl
  simp only [UNet.forward]
  rw [hdc, hdp, huc, hus, h0]
  rw [List.range_eq_range']
  rw [down_loop_spec hp hp.repeat_blocks 0 (by omega)]
  rw [show (0 + hp.repeat_blocks) = hp.repeat_blocks from by omega]
  rw [← List.range_eq_range']
  have hfl : TExpr.applySeq (UNet.build hp).floor_block.down_conv
      (UNet.specX (UNet.build hp) hp.repeat_blocks) = UNet.specUp (UNet.build hp) 0 := rfl
  rw [hfl]
  rw [← List.map_reverse, ← List.map_reverse, ← List.map_reverse]
  rw [List.zip_map', List.zip_map']
  rw [up_loop_spec hp hp.repeat_blocks 0 (by omega)]
  rfl

/-! ### Shape lemmas -/

lemma outShape_applySeq (ls : List Layer) (t : TExpr) (inS : Shape) :
    (TExpr.applySeq ls t).outShape inS = seqShape ls (t.outShape inS) := by
  induction ls generalizing t with
  | nil => rfl
  | cons l ls ih =>
    show (TExpr.applySeq ls (TExpr.app l t)).outShape inS = _
    rw [ih]
    rfl

/-- A stride-1 convolution with the computed padding and an odd kernel keeps
the spatial size. -/
lemma convOutSize_stride_one (h k : Nat) (hk : k % 2 = 1) (hh : 1 ≤ h) :
    convOutSize h k 1 (get_downsample_pad 1 k) = h := by
  simp only [convOutSize, get_downsample_pad]
  omega

/-- The 1x1, stride-1, padding-0 output convolution keeps the spatial size. -/
lemma convOutSize_one_one (h : Nat) (hh : 1 ≤ h) :
    convOutSize h 1 1 0 = h := by
  simp only [convOutSize]
  omega

/-- The pooling layer with the computed padding maps size `stride * q` to `q`
whenever the `__init__` assertion (`stride > 1` or odd kernel) holds. -/
lemma convOutSize_pool (ps pk q : Nat) (hps : 1 ≤ ps)
    (hor : 1 < ps ∨ pk % 2 = 1) (hpk : ps ≤ pk) (hq : 1 ≤ q) :
    convOutSize (ps * q) pk ps (get_downsample_pad ps pk) = q := by
  obtain ⟨r, rfl⟩ : ∃ r, q = r + 1 := ⟨q - 1, by omega⟩
  have hmul : ps * (r + 1) = ps * r + ps := by ring
  have hpad : 2 * get_downsample_pad ps pk = (pk - ps) + (pk - ps) % 2 := by
    simp only [get_downsample_pad]
    omega
  have hm0 : (pk - ps) % 2 / ps = 0 := by
    rcases Nat.lt_or_ge ps 2 with h2 | h2
    · have hps1 : ps = 1 := by omega
      have hodd : pk % 2 = 1 := by
        rcases hor with h | h
        · omega
        · exact h
      have : (pk - ps) % 2 = 0 := by omega
      simp [this]
    · exact Nat.div_eq_of_lt (by omega)
  simp only [convOutSize]
  rw [hmul]
  have key : ps * r + ps + 2 * get_downsample_pad ps pk - pk = ps * r + (pk - ps) % 2 := by
    omega
  rw [key, Nat.mul_add_div (by omega), hm0]

/-- The transposed convolution built by `_up_samples` (kernel
`kernel_scale * stride`, padding and output padding from `get_upsample_pad`)
maps size `h` to `h * stride`: it exactly undoes the pooling stage. -/
lemma convTransposeOutSize_up (ps kc h : Nat) (hps : 1 ≤ ps) (hkc : 1 ≤ kc)
    (hh : 1 ≤ h) :
    convTransposeOutSize h (kc * ps) ps (get_upsample_pad ps (kc * ps)).1
      (get_upsample_pad ps (kc * ps)).2 = h * ps := by
  have hksp : ps ≤ kc * ps := by
    calc ps = 1 * ps := by ring
    _ ≤ kc * ps := Nat.mul_le_mul_right ps hkc
  have hpad : 2 * (get_upsample_pad ps (kc * ps)).1 =
      (kc * ps - ps) + (kc * ps - ps) % 2 := by
    simp only [get_upsample_pad]
    omega
  have hop : (get_upsample_pad ps (kc * ps)).2 = (kc * ps - ps) % 2 := by
    simp only [get_upsample_pad]
    omega
  simp only [convTransposeOutSize]
  have key : (h - 1) * ps + kc * ps + (get_upsample_pad ps (kc * ps)).2 -
      2 * (get_upsample_pad ps (kc * ps)).1 = (h - 1) * ps + ps := by
    omega
  rw [key]
  obtain ⟨r, rfl⟩ : ∃ r, h = r + 1 := ⟨h - 1, by omega⟩
  simp [Nat.succ_mul]

lemma seqShape_down_conv (ic k : Nat) (bn : Bool) (dr : ℚ) (s : Shape)
    (hk : k % 2 = 1) (hh : 1 ≤ s.height) (hw : 1 ≤ s.width) :
    seqShape (DownConv.build ic k bn dr).down_conv s = ⟨2 * ic, s.height, s.width⟩ := by
  obtain ⟨c, h, w⟩ := s
  have eh := convOutSize_stride_one h k hk hh
  have ew := convOutSize_stride_one w k hk hw
  cases bn <;>
    simp [DownConv.build, DownConv.down_conv_layers, conv_stride, seqShape,
      Layer.outShape, eh, ew]

lemma seqShape_up_conv (ic k : Nat) (bn : Bool) (dr : ℚ) (s : Shape)
    (hk : k % 2 = 1) (hh : 1 ≤ s.height) (hw : 1 ≤ s.width) :
    seqShape (UpConv.build ic k bn dr).up_conv s = ⟨ic / 2, s.height, s.width⟩ := by
  obtain ⟨c, h, w⟩ := s
  have eh := convOutSize_stride_one h k hk hh
  have ew := convOutSize_stride_one w k hk hw
  cases bn <;>
    simp [UpConv.build, UpConv.up_conv_layers, conv_stride, seqShape,
      Layer.outShape, eh, ew]

lemma seqShape_input_block (hp : Hyper) (s : Shape)
    (hk : hp.conv_kernel % 2 = 1) (hh : 1 ≤ s.height) (hw : 1 ≤ s.width) :
    seqShape (UNet.mk_input_block hp) s = ⟨hp.n_filters, s.height, s.width⟩ := by
  obtain ⟨c, h, w⟩ := s
  have eh := convOutSize_stride_one h hp.conv_kernel hk hh
  have ew := convOutSize_stride_one w hp.conv_kernel hk hw
  cases hbn : hp.batch_norm <;>
    simp [UNet.mk_input_block, hbn, conv_stride, seqShape, Layer.outShape, eh, ew]

lemma seqShape_classification_block (hp : Hyper) (s : Shape)
    (hk : hp.conv_kernel % 2 = 1) (hh : 1 ≤ s.height) (hw : 1 ≤ s.width) :
    seqShape (UNet.mk_classification_block hp) s = ⟨hp.n_filters, s.height, s.width⟩ := by
  obtain ⟨c, h, w⟩ := s
  have eh := convOutSize_stride_one h hp.conv_kernel hk hh
  have ew := convOutSize_stride_one w hp.conv_kernel hk hw
  cases hbn : hp.batch_norm <;>
    simp [UNet.mk_classification_block, hbn, conv_stride, seqShape, Layer.outShape, eh, ew]

lemma outShape_input (inS : Shape) : TExpr.input.outShape inS = inS := rfl

lemma outShape_app (l : Layer) (t : TExpr) (inS : Shape) :
    (TExpr.app l t).outShape inS = l.outShape (t.outShape inS) := rfl

lemma outShape_cat (a b : TExpr) (inS : Shape) :
    (TExpr.cat a b).outShape inS =
      ⟨(a.outShape inS).channels + (b.outShape inS).channels,
       (a.outShape inS).height, (a.outShape inS).width⟩ := rfl

lemma specX_zero (net : UNet) :
    UNet.specX net 0 = TExpr.applySeq net.input_block TExpr.input := rfl

lemma specUp_zero (net : UNet) :
    UNet.specUp net 0 =
      TExpr.applySeq net.floor_block.down_conv (UNet.specX net net.repeat_blocks) := rfl

lemma build_input_block (hp : Hyper) :
    (UNet.build hp).input_block = UNet.mk_input_block hp := rfl

lemma build_floor_block (hp : Hyper) :
    (UNet.build hp).floor_block =
      DownConv.build (hp.n_filters * 2 ^ hp.repeat_blocks) hp.conv_kernel hp.batch_norm
        hp.dropout := rfl

lemma build_classification_block (hp : Hyper) :
    (UNet.build hp).classification_block = UNet.mk_classification_block hp := rfl

lemma build_output_layer (hp : Hyper) :
    (UNet.build hp).output_layer = ⟨hp.n_filters, hp.out_channels, 1, 1, 0⟩ := rfl

lemma build_repeat_blocks (hp : Hyper) :
    (UNet.build hp).repeat_blocks = hp.repeat_blocks := rfl

section SpatialInduction

variable (hp : Hyper) (inS : Shape) (mh mw : Nat)

/-- Shape invariant of the encoder: just before level `i`, the tensor has
`n_filters * 2^i` channels and spatial sizes `pool_stride^(repeat_blocks - i)`
times the base sizes. -/
lemma specX_shape (hck : hp.conv_kernel % 2 = 1) (hps : 1 ≤ hp.pool_stride)
    (hpk : hp.pool_stride ≤ hp.pool_kernel)
    (hor : 1 < hp.pool_stride ∨ hp.pool_kernel % 2 = 1)
    (hH : inS.height = hp.pool_stride ^ hp.repeat_blocks * mh)
    (hW : inS.width = hp.pool_stride ^ hp.repeat_blocks * mw)
    (hmh : 1 ≤ mh) (hmw : 1 ≤ mw) :
    ∀ i, i ≤ hp.repeat_blocks →
      (UNet.specX (UNet.build hp) i).outShape inS =
        ⟨hp.n_filters * 2 ^ i,
         hp.pool_stride ^ (hp.repeat_blocks - i) * mh,
         hp.pool_stride ^ (hp.repeat_blocks - i) * mw⟩ := by
  have hpow : ∀ j : Nat, 1 ≤ hp.pool_stride ^ j := fun j => Nat.one_le_pow j _ (by omega)
  have hposm : ∀ (j m : Nat), 1 ≤ m → 1 ≤ hp.pool_stride ^ j * m := by
    intro j m hm
    calc 1 = 1 * 1 := by ring
    _ ≤ hp.pool_stride ^ j * m := Nat.mul_le_mul (hpow j) hm
  intro i
  induction i with
  | zero =>
    intro _
    rw [specX_zero, outShape_applySeq, outShape_input, build_input_block]
    rw [seqShape_input_block hp inS hck (by rw [hH]; exact hposm _ _ hmh)
      (by rw [hW]; exact hposm _ _ hmw)]
    rw [hH, hW]
    simp
  | succ i ih =>
    intro hi
    have hilt : i < hp.repeat_blocks := by omega
    have hx := ih (by omega)
    rw [specX_succ_of_lt hp i hilt]
    rw [outShape_app, outShape_applySeq, hx]
    rw [show downConvAt hp i =
      DownConv.build (hp.n_filters * 2 ^ i) hp.conv_kernel hp.batch_norm hp.dropout from rfl]
    rw [seqShape_down_conv _ _ _ _ _ hck (hposm _ _ hmh) (hposm _ _ hmw)]
    simp only [Layer.outShape, poolDesc]
    have hfac : ∀ m : Nat, hp.pool_stride ^ (hp.repeat_blocks - i) * m =
        hp.pool_stride * (hp.pool_stride ^ (hp.repeat_blocks - (i + 1)) * m) := by
      intro m
      rw [show hp.repeat_blocks - i = (hp.repeat_blocks - (i + 1)) + 1 from by omega, pow_succ]
      ring
    rw [hfac mh, hfac mw]
    rw [convOutSize_pool _ _ _ hps hor hpk (hposm _ _ hmh)]
    rw [convOutSize_pool _ _ _ hps hor hpk (hposm _ _ hmw)]
    rw [show 2 * (hp.n_filters * 2 ^ i) = hp.n_filters * 2 ^ (i + 1) from by
      rw [pow_succ]; ring]

/-- Shape invariant of the decoder: after the `k` deepest decoder levels the
tensor has `n_filters * 2^(repeat_blocks - k + 1)` channels and spatial sizes
`pool_stride^k` times the base sizes. -/
lemma specUp_shape (hck : hp.conv_kernel % 2 = 1) (hps : 1 ≤ hp.pool_stride)
    (hpk : hp.pool_stride ≤ hp.pool_kernel)
    (hor : 1 < hp.pool_stride ∨ hp.pool_kernel % 2 = 1)
    (hkc : 1 ≤ hp.kernel_scale)
    (hH : inS.height = hp.pool_stride ^ hp.repeat_blocks * mh)
    (hW : inS.width = hp.pool_stride ^ hp.repeat_blocks * mw)
    (hmh : 1 ≤ mh) (hmw : 1 ≤ mw) :
    ∀ k, k ≤ hp.repeat_blocks →
      (UNet.specUp (UNet.build hp) k).outShape inS =
        ⟨hp.n_filters * 2 ^ (hp.repeat_blocks - k + 1),
         hp.pool_stride ^ k * mh,
         hp.pool_stride ^ k * mw⟩ := by
  have hpow : ∀ j : Nat, 1 ≤ hp.pool_stride ^ j := fun j => Nat.one_le_pow j _ (by omega)
  have hposm : ∀ (j m : Nat), 1 ≤ m → 1 ≤ hp.pool_stride ^ j * m := by
    intro j m hm
    calc 1 = 1 * 1 := by ring
    _ ≤ hp.pool_stride ^ j * m := Nat.mul_le_mul (hpow j) hm
  intro k
  induction k with
  | zero =>
    intro _
    rw [specUp_zero, outShape_applySeq, build_repeat_blocks]
    rw [specX_shape hp inS mh mw hck hps hpk hor hH hW hmh hmw hp.repeat_blocks (Nat.le_refl _)]
    rw [build_floor_block]
    rw [seqShape_down_conv _ _ _ _ _ hck (hposm _ _ hmh) (hposm _ _ hmw)]
    rw [show 2 * (hp.n_filters * 2 ^ hp.repeat_blocks) =
      hp.n_filters * 2 ^ (hp.repeat_blocks - 0 + 1) from by
        rw [Nat.sub_zero, pow_succ]; ring]
    simp
  | succ k ih =>
    intro hk
    have hku := ih (by omega)
    have hi : (hp.repeat_blocks - (k + 1)) + (k + 1) = hp.repeat_blocks := by omega
    rw [specUp_succ_of hp k (hp.repeat_blocks - (k + 1)) hi]
    rw [outShape_applySeq, outShape_cat]
    have hskip : (UNet.specSkip (UNet.build hp) (hp.repeat_blocks - (k + 1))).outShape inS =
        ⟨hp.n_filters * 2 ^ ((hp.repeat_blocks - (k + 1)) + 1),
         hp.pool_stride ^ (k + 1) * mh, hp.pool_stride ^ (k + 1) * mw⟩ := by
      rw [specSkip_of_lt hp _ (by omega), outShape_applySeq]
      rw [specX_shape hp inS mh mw hck hps hpk hor hH hW hmh hmw _ (by omega)]
      rw [show downConvAt hp (hp.repeat_blocks - (k + 1)) =
        DownConv.build (hp.n_filters * 2 ^ (hp.repeat_blocks - (k + 1))) hp.conv_kernel
          hp.batch_norm hp.dropout from rfl]
      rw [seqShape_down_conv _ _ _ _ _ hck (hposm _ _ hmh) (hposm _ _ hmw)]
      rw [show hp.repeat_blocks - (hp.repeat_blocks - (k + 1)) = k + 1 from by omega]
      rw [show 2 * (hp.n_filters * 2 ^ (hp.repeat_blocks - (k + 1))) =
        hp.n_filters * 2 ^ ((hp.repeat_blocks - (k + 1)) + 1) from by
          rw [pow_succ]; ring]
    have hup : (TExpr.app (Layer.convTranspose2d (upSampleAt hp (hp.repeat_blocks - (k + 1))))
        (UNet.specUp (UNet.build hp) k)).outShape inS =
        ⟨hp.n_filters * 2 ^ ((hp.repeat_blocks - (k + 1)) + 1),
         hp.pool_stride ^ (k + 1) * mh, hp.pool_stride ^ (k + 1) * mw⟩ := by
      rw [outShape_app, hku]
      simp only [Layer.outShape, upSampleAt]
      rw [convTransposeOutSize_up _ _ _ hps hkc (hposm _ _ hmh)]
      rw [convTransposeOutSize_up _ _ _ hps hkc (hposm _ _ hmw)]
      have hfac : ∀ m : Nat, hp.pool_stride ^ k * m * hp.pool_stride =
          hp.pool_stride ^ (k + 1) * m := by
        intro m
        rw [pow_succ]
        ring
      rw [hfac mh, hfac mw]
    rw [hskip, hup]
    dsimp only
    rw [show upConvAt hp (hp.repeat_blocks - (k + 1)) =
      UpConv.build (hp.n_filters * 2 ^ ((hp.repeat_blocks - (k + 1)) + 2)) hp.conv_kernel
        hp.batch_norm hp.dropout from rfl]
    rw [seqShape_up_conv _ _ _ _ _ hck (hposm _ _ hmh) (hposm _ _ hmw)]
    rw [show hp.n_filters * 2 ^ ((hp.repeat_blocks - (k + 1)) + 2) / 2 =
      hp.n_filters * 2 ^ (hp.repeat_blocks - (k + 1) + 1) from by
        rw [pow_succ, ← Nat.mul_assoc]
        exact Nat.mul_div_cancel _ (by omega)]

end SpatialInduction

/-! ### Behaviour of the init model -/

lemma downConv_buildPy_error (ic k : Nat) (bn : Bool) (dr : ℚ) :
    DownConv.buildPy ic k bn dr = Except.error (PyExc.attributeError "conv_stride") := rfl

lemma assemblePy_snd (hp : Hyper) :
    (UNet.assemblePy hp).2 = some (PyExc.attributeError "conv_stride") := by
  unfold UNet.assemblePy
  cases hrb : hp.repeat_blocks with
  | zero =>
    simp only [UNet.mk_down_convsPy, hrb, List.range_zero, buildLoop,
      UNet.mk_floor_blockPy, downConv_buildPy_error]
  | succ n =>
    have : List.range (n + 1) = 0 :: (List.range n).map Nat.succ :=
      List.range_succ_eq_map n
    simp only [UNet.mk_down_convsPy, hrb, this, buildLoop, downConv_buildPy_error]

lemma initPy_exc_ok (hp : Hyper) (h1 : hp.conv_kernel % 2 = 1)
    (h2 : hp.pool_stride > 1 ∨ hp.pool_kernel % 2 = 1) :
    UNet.initPy hp = ⟨true, (UNet.assemblePy hp).1, (UNet.assemblePy hp).2⟩ := by
  unfold UNet.initPy
  rw [if_pos h1, if_pos h2]

/-! ### The multitask forward pass in terms of the shared trunk -/

/-- Fallback `Conv2d` descriptor for out-of-range list indexing. -/
def dfltConv : Conv2dDesc := ⟨0, 0, 0, 0, 0⟩

lemma multitask_net_eq (hp : MHyper) (n : Nat) :
    (UNetMultitask.build hp n).net = UNet.build hp.toHyper := rfl

lemma multitask_legs_eq (hp : MHyper) (n : Nat) :
    (UNetMultitask.build hp n).output_legs =
      (List.range n).map fun _ => UNet.mk_output_layer hp.toHyper := rfl

/-- The multitask forward pass applies each output leg to one shared trunk
value, the classification-block output described by `specTrunk`. -/
lemma multitask_forward_eq (hp : MHyper) (n : Nat) :
    UNetMultitask.forward (UNetMultitask.build hp n) =
      (UNetMultitask.build hp n).output_legs.map
        (fun leg => TExpr.app (Layer.conv2d leg) (UNet.specTrunk (UNet.build hp.toHyper))) := by
  have hdc : (UNet.build hp.toHyper).down_convs =
      (List.range hp.toHyper.repeat_blocks).map (downConvAt hp.toHyper) :=
    mk_down_convs_eq hp.toHyper
  have hdp : (UNet.build hp.toHyper).down_pools =
      List.replicate hp.toHyper.repeat_blocks (poolDesc hp.toHyper) :=
    mk_down_pools_eq hp.toHyper
  have huc : (UNet.build hp.toHyper).up_convs =
      (List.range hp.toHyper.repeat_blocks).map (upConvAt hp.toHyper) :=
    mk_up_convs_eq hp.toHyper
  have hus : (UNet.build hp.toHyper).up_samples =
      (List.range hp.toHyper.repeat_blocks).map (upSampleAt hp.toHyper) :=
    mk_up_samples_eq hp.toHyper
  have h0 : TExpr.applySeq (UNet.build hp.toHyper).input_block TExpr.input
      = UNet.specX (UNet.build hp.toHyper) 0 := rfl
  simp only [UNetMultitask.forward, multitask_net_eq]
  rw [hdc, hdp, huc, hus, h0]
  rw [List.range_eq_range']
  rw [down_loop_spec hp.toHyper hp.toHyper.repeat_blocks 0 (by omega)]
  rw [show (0 + hp.toHyper.repeat_blocks) = hp.toHyper.repeat_blocks from by omega]
  rw [← List.range_eq_range']
  have hfl : TExpr.applySeq (UNet.build hp.toHyper).floor_block.down_conv
      (UNet.specX (UNet.build hp.toHyper) hp.toHyper.repeat_blocks) =
      UNet.specUp (UNet.build hp.toHyper) 0 := rfl
  rw [hfl]
  rw [← List.map_reverse, ← List.map_reverse, ← List.map_reverse]
  rw [List.zip_map', List.zip_map']
  rw [up_loop_spec hp.toHyper hp.toHyper.repeat_blocks 0 (by omega)]
  rfl

/-! ### Claim theorems -/

/-- Claim C1: for every UNet built with valid hyperparameters (odd
`conv_kernel`; `pool_stride` at least 1 and at most `pool_kernel`;
`pool_stride > 1` or odd `pool_kernel`; positive `kernel_scale`) and every
input whose height and width are divisible by
`pool_stride ^ repeat_blocks`, the output of `UNet.forward` has exactly the
input's spatial dimensions: each downsampling stage's size reduction is
exactly undone by the corresponding upsampling stage via the paddings from
`get_downsample_pad` and `get_upsample_pad`. -/
theorem unet_forward_preserves_spatial_dims (hp : Hyper) (inS : Shape)
    (hck : hp.conv_kernel % 2 = 1) (hps : 1 ≤ hp.pool_stride)
    (hpk : hp.pool_stride ≤ hp.pool_kernel)
    (hor : 1 < hp.pool_stride ∨ hp.pool_kernel % 2 = 1)
    (hkc : 1 ≤ hp.kernel_scale)
    (hdh : hp.pool_stride ^ hp.repeat_blocks ∣ inS.height)
    (hdw : hp.pool_stride ^ hp.repeat_blocks ∣ inS.width)
    (hh : 0 < inS.height) (hw : 0 < inS.width) :
    ((UNet.forward (UNet.build hp)).outShape inS).height = inS.height ∧
    ((UNet.forward (UNet.build hp)).outShape inS).width = inS.width := by
  obtain ⟨mh, hH⟩ := hdh
  obtain ⟨mw, hW⟩ := hdw
  have hmh : 1 ≤ mh := by
    rcases Nat.eq_zero_or_pos mh with h0 | h1
    · rw [h0, Nat.mul_zero] at hH
      omega
    · exact h1
  have hmw : 1 ≤ mw := by
    rcases Nat.eq_zero_or_pos mw with h0 | h1
    · rw [h0, Nat.mul_zero] at hW
      omega
    · exact h1
  rw [forward_eq_forwardSpec]
  have hfs : UNet.forwardSpec (UNet.build hp) =
      TExpr.app (Layer.conv2d (UNet.build hp).output_layer)
        (UNet.specTrunk (UNet.build hp)) := rfl
  rw [hfs, outShape_app]
  have htr : (UNet.specTrunk (UNet.build hp)).outShape inS =
      ⟨hp.n_filters, inS.height, inS.width⟩ := by
    have hts : UNet.specTrunk (UNet.build hp) =
        TExpr.applySeq (UNet.build hp).classification_block
          (UNet.specUp (UNet.build hp) hp.repeat_blocks) := rfl
    rw [hts, outShape_applySeq]
    rw [specUp_shape hp inS mh mw hck hps hpk hor hkc hH hW hmh hmw hp.repeat_blocks
      (Nat.le_refl _)]
    rw [build_classification_block]
    have h2nf : hp.n_filters * 2 ^ (hp.repeat_blocks - hp.repeat_blocks + 1) =
        2 * hp.n_filters := by
      rw [Nat.sub_self]
      ring
    have hhgt : 1 ≤ hp.pool_stride ^ hp.repeat_blocks * mh := by
      calc 1 = 1 * 1 := by ring
      _ ≤ hp.pool_stride ^ hp.repeat_blocks * mh :=
        Nat.mul_le_mul (Nat.one_le_pow _ _ (by omega)) hmh
    have hwdt : 1 ≤ hp.pool_stride ^ hp.repeat_blocks * mw := by
      calc 1 = 1 * 1 := by ring
      _ ≤ hp.pool_stride ^ hp.repeat_blocks * mw :=
        Nat.mul_le_mul (Nat.one_le_pow _ _ (by omega)) hmw
    rw [seqShape_classification_block hp _ hck hhgt hwdt]
    rw [← hH, ← hW]
  rw [htr, build_output_layer]
  simp only [Layer.outShape]
  constructor
  · exact convOutSize_one_one _ (by omega)
  · exact convOutSize_one_one _ (by omega)

/-- Witness for C1 at the source's default hyperparameters and a 4 x 4
input. -/
theorem unet_forward_preserves_spatial_dims_witness :
    ((UNet.forward (UNet.build {})).outShape ⟨3, 4, 4⟩).height = 4 ∧
    ((UNet.forward (UNet.build {})).outShape ⟨3, 4, 4⟩).width = 4 :=
  unet_forward_preserves_spatial_dims {} ⟨3, 4, 4⟩ (by decide) (by decide) (by decide)
    (by decide) (by decide) (by decide) (by decide) (by decide) (by decide)

/-- Claim C4: the constructed network is symmetric in depth — exactly
`repeat_blocks` down-conv blocks, pooling layers, up-conv blocks and
transposed-convolution upsampling layers. -/
theorem unet_symmetric_depth (hp : Hyper) :
    (UNet.build hp).down_convs.length = hp.repeat_blocks ∧
    (UNet.build hp).down_pools.length = hp.repeat_blocks ∧
    (UNet.build hp).up_convs.length = hp.repeat_blocks ∧
    (UNet.build hp).up_samples.length = hp.repeat_blocks := by
  refine ⟨?_, ?_, ?_, ?_⟩
  · rw [show (UNet.build hp).down_convs = UNet.mk_down_convs hp from rfl, mk_down_convs_eq]
    simp
  · rw [show (UNet.build hp).down_pools = UNet.mk_down_pools hp from rfl, mk_down_pools_eq]
    simp
  · rw [show (UNet.build hp).up_convs = UNet.mk_up_convs hp from rfl, mk_up_convs_eq]
    simp
  · rw [show (UNet.build hp).up_samples = UNet.mk_up_samples hp from rfl, mk_up_samples_eq]
    simp

/-- Claim C5: `UNet.forward` executes the assembled graph in the one fixed
order described level by level by `forwardSpec`: input block; each down-conv
block (output saved as skip connection) followed by its pooling layer, levels
ascending; floor block; then levels descending: upsampling, concatenation of
the saved skip output (first) with the upsampled tensor along the channel
dimension, up-conv block; classification block; output layer. -/
theorem unet_forward_fixed_order (hp : Hyper) :
    UNet.forward (UNet.build hp) = UNet.forwardSpec (UNet.build hp) :=
  forward_eq_forwardSpec hp

/-- Claim C7: network construction is deterministic — two networks built from
the same ten hyperparameters (whatever extra keyword arguments were passed)
are identical, layer for layer. -/
theorem unet_build_deterministic (hp₁ hp₂ : Hyper)
    (h1 : hp₁.conv_kernel = hp₂.conv_kernel)
    (h2 : hp₁.pool_kernel = hp₂.pool_kernel)
    (h3 : hp₁.pool_stride = hp₂.pool_stride)
    (h4 : hp₁.repeat_blocks = hp₂.repeat_blocks)
    (h5 : hp₁.n_filters = hp₂.n_filters)
    (h6 : hp₁.batch_norm = hp₂.batch_norm)
    (h7 : hp₁.dropout = hp₂.dropout)
    (h8 : hp₁.in_channels = hp₂.in_channels)
    (h9 : hp₁.out_channels = hp₂.out_channels)
    (h10 : hp₁.kernel_scale = hp₂.kernel_scale) :
    UNet.build hp₁ = UNet.build hp₂ := by
  cases hp₁
  cases hp₂
  dsimp only at h1 h2 h3 h4 h5 h6 h7 h8 h9 h10
  subst h1 h2 h3 h4 h5 h6 h7 h8 h9 h10
  rfl

/-- Witness for C7: two constructions with different extra keyword arguments
yield the same network. -/
theorem unet_build_deterministic_witness :
    UNet.build { kwargs := [("seed", "1")] } = UNet.build {} :=
  unet_build_deterministic { kwargs := [("seed", "1")] } {} rfl rfl rfl rfl rfl rfl rfl
    rfl rfl rfl

/-- Claim C2 (refuted by the code): at the source's default hyperparameters —
which satisfy both assertions — `UNet.__init__` does not complete: after the
warning and the successful assembly of `input_block`, building the first
`DownConv` raises `AttributeError` because `_down_conv` reads
`self.conv_stride`, an attribute never assigned on `DownConv` objects. -/
theorem unet_init_defaults_attribute_error :
    UNet.initPy {} =
      ⟨true, ["input_block"], some (PyExc.attributeError "conv_stride")⟩ := by decide

/-- Claim C3: the multitask forward pass returns exactly `nr_outputs` output
maps; each is a distinct 1x1 output leg applied to one and the same shared
classification-block output. -/
theorem multitask_forward_outputs (hp : MHyper) (n j : Nat) (hj : j < n) :
    (UNetMultitask.forward (UNetMultitask.build hp n)).length = n ∧
    (UNetMultitask.build hp n).output_legs.getD j dfltConv =
      ⟨hp.n_filters, hp.out_channels, 1, 1, 0⟩ ∧
    (UNetMultitask.forward (UNetMultitask.build hp n)).getD j TExpr.input =
      TExpr.app (Layer.conv2d ((UNetMultitask.build hp n).output_legs.getD j dfltConv))
        (UNet.specTrunk (UNet.build hp.toHyper)) := by
  have hfwd := multitask_forward_eq hp n
  have hlegs := multitask_legs_eq hp n
  refine ⟨?_, ?_, ?_⟩
  · rw [hfwd, hlegs]
    simp
  · rw [hlegs, getD_range_map _ _ _ _ hj]
    rfl
  · rw [hfwd, hlegs, List.map_map, getD_range_map _ _ _ _ hj,
      getD_range_map _ _ _ _ hj]
    rfl

/-- Witness for C3 at concrete shared hyperparameters with two heads. -/
theorem multitask_forward_outputs_witness :
    (UNetMultitask.forward (UNetMultitask.build ⟨3, 3, 2, 2, 8, true, 1/10, 3, 2⟩ 2)).length
      = 2 :=
  (multitask_forward_outputs ⟨3, 3, 2, 2, 8, true, 1/10, 3, 2⟩ 2 0 (by decide)).1

/-- Claim C6: with the shared hyperparameters (those `UNetMultitask.__init__`
accepts, the base network built with `kernel_scale` left at its default), the
multitask network's trunk is the very `UNet` the base constructor builds, and
both forward passes factor through one and the same classification-block
output `specTrunk`; they differ only in the final stage — a single output
layer versus `nr_outputs` parallel output legs. -/
theorem multitask_trunk_refines_unet (hp : MHyper) (n : Nat) :
    (UNetMultitask.build hp n).net = UNet.build hp.toHyper ∧
    UNet.forward (UNet.build hp.toHyper) =
      TExpr.app (Layer.conv2d (UNet.build hp.toHyper).output_layer)
        (UNet.specTrunk (UNet.build hp.toHyper)) ∧
    UNetMultitask.forward (UNetMultitask.build hp n) =
      (UNetMultitask.build hp n).output_legs.map
        (fun leg => TExpr.app (Layer.conv2d leg)
          (UNet.specTrunk (UNet.build hp.toHyper))) :=
  ⟨rfl, forward_eq_forwardSpec hp.toHyper, multitask_forward_eq hp n⟩

/-- Claim C8: `UNet.__init__` raises `AssertionError` exactly when
`conv_kernel` is even, or `pool_stride ≤ 1` and `pool_kernel` is even; in
that case it raises before any component is assembled (and before the
warning), and otherwise the divisibility warning is always emitted. -/
theorem unet_init_assertion_behaviour (hp : Hyper) :
    ((UNet.initPy hp).exc = some PyExc.assertionError ↔
      hp.conv_kernel % 2 = 0 ∨ (hp.pool_stride ≤ 1 ∧ hp.pool_kernel % 2 = 0)) ∧
    ((UNet.initPy hp).exc = some PyExc.assertionError →
      (UNet.initPy hp).assembled = [] ∧ (UNet.initPy hp).warned = false) ∧
    ((UNet.initPy hp).exc ≠ some PyExc.assertionError →
      (UNet.initPy hp).warned = true) := by
  by_cases h1 : hp.conv_kernel % 2 = 1
  · by_cases h2 : hp.pool_stride > 1 ∨ hp.pool_kernel % 2 = 1
    · rw [initPy_exc_ok hp h1 h2]
      refine ⟨?_, ?_, ?_⟩
      · simp only [assemblePy_snd]
        constructor
        · intro h
          cases h
        · intro h
          omega
      · intro h
        rw [assemblePy_snd] at h
        cases h
      · intro _
        rfl
    · have : UNet.initPy hp = ⟨false, [], some PyExc.assertionError⟩ := by
        unfold UNet.initPy
        rw [if_pos h1, if_neg h2]
      rw [this]
      refine ⟨?_, ?_, ?_⟩
      · simp only []
        constructor
        · intro _
          omega
        · intro _
          trivial
      · intro _
        exact ⟨rfl, rfl⟩
      · intro h
        exact absurd rfl h
  · have : UNet.initPy hp = ⟨false, [], some PyExc.assertionError⟩ := by
      unfold UNet.initPy
      rw [if_neg h1]
    rw [this]
    refine ⟨?_, ?_, ?_⟩
    · simp only []
      constructor
      · intro _
        omega
      · intro _
        trivial
    · intro _
      exact ⟨rfl, rfl⟩
    · intro h
      exact absurd rfl h

/-- Witness for C8: an even `conv_kernel` trips the first assertion with no
component assembled, and at the defaults no `AssertionError` is raised and
the warning is emitted. -/
theorem unet_init_assertion_behaviour_witness :
    ((UNet.initPy { conv_kernel := 4 }).assembled = [] ∧
      (UNet.initPy { conv_kernel := 4 }).warned = false) ∧
    (UNet.initPy {}).warned = true :=
  ⟨(unet_init_assertion_behaviour { conv_kernel := 4 }).2.1 (by decide),
   (unet_init_assertion_behaviour {}).2.2 (by decide)⟩

lemma seqShape_down_conv_channels (ic k : Nat) (bn : Bool) (dr : ℚ) (s : Shape) :
    (seqShape (DownConv.build ic k bn dr).down_conv s).channels = 2 * ic := by
  cases bn <;>
    simp [DownConv.build, DownConv.down_conv_layers, conv_stride, seqShape, Layer.outShape]

lemma seqShape_up_conv_channels (ic k : Nat) (bn : Bool) (dr : ℚ) (s : Shape) :
    (seqShape (UpConv.build ic k bn dr).up_conv s).channels = ic / 2 := by
  cases bn <;>
    simp [UpConv.build, UpConv.up_conv_layers, conv_stride, seqShape, Layer.outShape]

/-- Claim C9: channel bookkeeping is consistent at every skip connection.
Every constructed `DownConv` outputs exactly twice its input channel count and
every constructed `UpConv` outputs exactly half its input channel count; at
decoder level `i` the upsampling layer outputs `n_filters * 2^(i+1)` channels
— exactly the channel count of the saved encoder output of level `i` — and
their concatenation has `n_filters * 2^(i+2)` channels, the declared input
channel count of the level's `UpConv` block. -/
theorem unet_channel_bookkeeping (hp : Hyper) (i : Nat) (hi : i < hp.repeat_blocks)
    (s : Shape) :
    (∀ dc ∈ (UNet.build hp).down_convs,
      (seqShape dc.down_conv s).channels = 2 * dc.in_channels) ∧
    (∀ uc ∈ (UNet.build hp).up_convs,
      2 * (seqShape uc.up_conv s).channels = uc.in_channels) ∧
    ((UNet.build hp).up_samples.getD i dfltSample).out_channels =
      hp.n_filters * 2 ^ (i + 1) ∧
    (∀ inS : Shape, ((UNet.specSkip (UNet.build hp) i).outShape inS).channels =
      hp.n_filters * 2 ^ (i + 1)) ∧
    hp.n_filters * 2 ^ (i + 1) + hp.n_filters * 2 ^ (i + 1) =
      hp.n_filters * 2 ^ (i + 2) ∧
    ((UNet.build hp).up_convs.getD i dfltUpConv).in_channels =
      hp.n_filters * 2 ^ (i + 2) := by
  refine ⟨?_, ?_, ?_, ?_, ?_, ?_⟩
  · intro dc hdc
    rw [show (UNet.build hp).down_convs = UNet.mk_down_convs hp from rfl,
      mk_down_convs_eq] at hdc
    obtain ⟨j, _, rfl⟩ := List.mem_map.mp hdc
    rw [show downConvAt hp j =
      DownConv.build (hp.n_filters * 2 ^ j) hp.conv_kernel hp.batch_norm hp.dropout from rfl]
    rw [seqShape_down_conv_channels]
    rfl
  · intro uc huc
    rw [show (UNet.build hp).up_convs = UNet.mk_up_convs hp from rfl,
      mk_up_convs_eq] at huc
    obtain ⟨j, _, rfl⟩ := List.mem_map.mp huc
    rw [show upConvAt hp j =
      UpConv.build (hp.n_filters * 2 ^ (j + 2)) hp.conv_kernel hp.batch_norm hp.dropout
      from rfl]
    rw [seqShape_up_conv_channels]
    show 2 * (hp.n_filters * 2 ^ (j + 2) / 2) = hp.n_filters * 2 ^ (j + 2)
    have heven : hp.n_filters * 2 ^ (j + 2) = 2 * (hp.n_filters * 2 ^ (j + 1)) := by
      rw [pow_succ]
      ring
    rw [heven, Nat.mul_div_cancel_left _ (by omega)]
  · rw [build_up_samples_getD hp i hi]
    rfl
  · intro inS
    rw [specSkip_of_lt hp i hi, outShape_applySeq]
    rw [show downConvAt hp i =
      DownConv.build (hp.n_filters * 2 ^ i) hp.conv_kernel hp.batch_norm hp.dropout from rfl]
    rw [seqShape_down_conv_channels]
    rw [pow_succ]
    ring
  · rw [pow_succ]
    ring
  · rw [build_up_convs_getD hp i hi]
    rfl

/-- Witness for C9 at the defaults, level 0. -/
theorem unet_channel_bookkeeping_witness :
    ((UNet.build {}).up_samples.getD 0 dfltSample).out_channels = 16 ∧
    ((UNet.build {}).up_convs.getD 0 dfltUpConv).in_channels = 32 :=
  ⟨(unet_channel_bookkeeping {} 0 (by decide) ⟨1, 1, 1⟩).2.2.1,
   (unet_channel_bookkeeping {} 0 (by decide) ⟨1, 1, 1⟩).2.2.2.2.2⟩

/-- Claim C10: `_output_layer` always builds a 1x1 convolution with stride 1
and zero padding from `n_filters` to `out_channels` channels; applied to any
(nonempty) shape it yields exactly `out_channels` channels and unchanged
spatial dimensions, and `UNet.forward` is exactly this layer applied to the
classification-block output. -/
theorem unet_output_layer_one_by_one (hp : Hyper) (s : Shape)
    (hh : 1 ≤ s.height) (hw : 1 ≤ s.width) :
    (UNet.build hp).output_layer = ⟨hp.n_filters, hp.out_channels, 1, 1, 0⟩ ∧
    Layer.outShape (Layer.conv2d (UNet.build hp).output_layer) s =
      ⟨hp.out_channels, s.height, s.width⟩ ∧
    UNet.forward (UNet.build hp) =
      TExpr.app (Layer.conv2d (UNet.build hp).output_layer)
        (UNet.specTrunk (UNet.build hp)) := by
  refine ⟨rfl, ?_, forward_eq_forwardSpec hp⟩
  rw [build_output_layer]
  simp only [Layer.outShape]
  rw [convOutSize_one_one _ hh, convOutSize_one_one _ hw]

/-- Witness for C10 at the defaults on a 5 x 7 shape. -/
theorem unet_output_layer_one_by_one_witness :
    Layer.outShape (Layer.conv2d (UNet.build {}).output_layer) ⟨8, 5, 7⟩ = ⟨2, 5, 7⟩ :=
  (unet_output_layer_one_by_one {} ⟨8, 5, 7⟩ (by decide) (by decide)).2.1

end Steppy
